import Mathlib

/-!
Verification development for the Fallom TypeScript SDK configuration
assignment and caching engine.

The definitions below are a shallow embedding of the source modules:
the model A/B assignment module (module state, config cache, fetch
operations, weighted get) and the prompt module in trace/core.ts
(prompt cache, prompt A/B cache, template interpolation, one-shot
prompt context).  Network effects are modelled by an explicit Remote
value describing what each HTTP endpoint would answer, and
fire-and-forget calls are recorded as events rather than applied,
matching their non-awaited semantics in the source.  Machine words in
the MD5 computation are Nat with explicit reduction modulo 2 ^ 32.
-/

/-! ## Small utilities -/

/-- JavaScript truthiness of a possibly absent string: an absent value
and the empty string are falsy, every other string is truthy. -/
def truthy : Option String → Bool
  | none => false
  | some s => !(s == "")

/-- First truthy value of a chain `a || b || ... || null`
(JavaScript or-chains skip falsy values, including empty strings). -/
def firstTruthyOpt : List (Option String) → Option String
  | [] => none
  | o :: t => if truthy o then o else firstTruthyOpt t

/-- `a || b || ... || dflt` with a final string default. -/
def firstTruthyStr (xs : List (Option String)) (dflt : String) : String :=
  match firstTruthyOpt xs with
  | some s => s
  | none => dflt

/-- Lookup in an association list, first match wins (models `Map.get`). -/
def lookupA {K V : Type} [BEq K] : List (K × V) → K → Option V
  | [], _ => none
  | (k, v) :: t, key => if k == key then some v else lookupA t key

/-- Update in an association list: replaces the first binding of the key
in place, or appends a new binding (models `Map.set`, which keeps the
insertion position of an existing key). -/
def setA {K V : Type} [BEq K] : List (K × V) → K → V → List (K × V)
  | [], key, v => [(key, v)]
  | (k, w) :: t, key, v =>
      if k == key then (key, v) :: t else (k, w) :: setA t key v

/-- Character-list prefix test. -/
def isPrefixL : List Char → List Char → Bool
  | [], _ => true
  | _ :: _, [] => false
  | a :: as, b :: bs => a == b && isPrefixL as bs

/-- Substring test on character lists (models `String.includes`). -/
def containsSub (needle : List Char) : List Char → Bool
  | [] => isPrefixL needle []
  | c :: t => isPrefixL needle (c :: t) || containsSub needle t

/-- `msg.includes "not found"` from the catch block of the models get. -/
def msgHasNotFound (msg : String) : Bool :=
  containsSub "not found".data msg.data

/-! ## MD5 (the digest used by `createHash("md5")` in both modules)

A byte is a `Nat` below 256; words are `Nat` reduced modulo `2 ^ 32`.
All recursions are structural so that concrete digests evaluate in the
kernel. -/

/-- 32-bit truncating addition. -/
def add32 (a b : Nat) : Nat := (a + b) % 4294967296

/-- 32-bit complement. -/
def not32 (x : Nat) : Nat := 4294967295 ^^^ x

/-- 32-bit left rotation (argument assumed below `2 ^ 32`). -/
def rotl32 (x n : Nat) : Nat :=
  ((x <<< n) % 4294967296) ||| (x >>> (32 - n))

/-- Round function F (rounds 0-15). -/
def mdF (b c d : Nat) : Nat := (b &&& c) ||| (not32 b &&& d)

/-- Round function G (rounds 16-31). -/
def mdG (b c d : Nat) : Nat := (d &&& b) ||| (not32 d &&& c)

/-- Round function H (rounds 32-47). -/
def mdH (b c d : Nat) : Nat := b ^^^ c ^^^ d

/-- Round function I (rounds 48-63). -/
def mdI (b c d : Nat) : Nat := c ^^^ (b ||| not32 d)

/-- The 64 sine-derived constants of MD5. -/
def mdK : List Nat :=
  [0xd76aa478, 0xe8c7b756, 0x242070db, 0xc1bdceee,
   0xf57c0faf, 0x4787c62a, 0xa8304613, 0xfd469501,
   0x698098d8, 0x8b44f7af, 0xffff5bb1, 0x895cd7be,
   0x6b901122, 0xfd987193, 0xa679438e, 0x49b40821,
   0xf61e2562, 0xc040b340, 0x265e5a51, 0xe9b6c7aa,
   0xd62f105d, 0x02441453, 0xd8a1e681, 0xe7d3fbc8,
   0x21e1cde6, 0xc33707d6, 0xf4d50d87, 0x455a14ed,
   0xa9e3e905, 0xfcefa3f8, 0x676f02d9, 0x8d2a4c8a,
   0xfffa3942, 0x8771f681, 0x6d9d6122, 0xfde5380c,
   0xa4beea44, 0x4bdecfa9, 0xf6bb4b60, 0xbebfbc70,
   0x289b7ec6, 0xeaa127fa, 0xd4ef3085, 0x04881d05,
   0xd9d4d039, 0xe6db99e5, 0x1fa27cf8, 0xc4ac5665,
   0xf4292244, 0x432aff97, 0xab9423a7, 0xfc93a039,
   0x655b59c3, 0x8f0ccc92, 0xffeff47d, 0x85845dd1,
   0x6fa87e4f, 0xfe2ce6e0, 0xa3014314, 0x4e0811a1,
   0xf7537e82, 0xbd3af235, 0x2ad7d2bb, 0xeb86d391]

/-- The 64 per-round left-rotation amounts of MD5. -/
def mdS : List Nat :=
  [7, 12, 17, 22, 7, 12, 17, 22, 7, 12, 17, 22, 7, 12, 17, 22,
   5, 9, 14, 20, 5, 9, 14, 20, 5, 9, 14, 20, 5, 9, 14, 20,
   4, 11, 16, 23, 4, 11, 16, 23, 4, 11, 16, 23, 4, 11, 16, 23,
   6, 10, 15, 21, 6, 10, 15, 21, 6, 10, 15, 21, 6, 10, 15, 21]

/-- MD5 chaining state. -/
structure MDState where
  a : Nat
  b : Nat
  c : Nat
  d : Nat
deriving DecidableEq, Repr

/-- Initial MD5 chaining state. -/
def mdInit : MDState := ⟨0x67452301, 0xefcdab89, 0x98badcfe, 0x10325476⟩

/-- Little-endian 32-bit word `j` of a 64-byte block. -/
def wordAt (block : List Nat) (j : Nat) : Nat :=
  block.getD (4 * j) 0 + block.getD (4 * j + 1) 0 * 256 +
    block.getD (4 * j + 2) 0 * 65536 + block.getD (4 * j + 3) 0 * 16777216

/-- One of the 64 MD5 rounds. -/
def mdStep (block : List Nat) (st : MDState) (i : Nat) : MDState :=
  let fg : Nat × Nat :=
    if i < 16 then (mdF st.b st.c st.d, i)
    else if i < 32 then (mdG st.b st.c st.d, (5 * i + 1) % 16)
    else if i < 48 then (mdH st.b st.c st.d, (3 * i + 5) % 16)
    else (mdI st.b st.c st.d, (7 * i) % 16)
  let tmp := add32 (add32 (add32 st.a fg.1) (mdK.getD i 0)) (wordAt block fg.2)
  ⟨st.d, add32 st.b (rotl32 tmp (mdS.getD i 0)), st.b, st.c⟩

/-- Compression of one 64-byte block. -/
def processBlock (st : MDState) (block : List Nat) : MDState :=
  let r := (List.range 64).foldl (mdStep block) st
  ⟨add32 st.a r.a, add32 st.b r.b, add32 st.c r.c, add32 st.d r.d⟩

/-- MD5 padding: a 0x80 byte, zeros to 56 mod 64, then the bit length
as 8 little-endian bytes. -/
def padMsg (msg : List Nat) : List Nat :=
  let len := msg.length
  let z := (119 - len % 64) % 64
  let bitLen := (8 * len) % 18446744073709551616
  msg ++ [0x80] ++ List.replicate z 0 ++
    ((List.range 8).map fun i => (bitLen >>> (8 * i)) % 256)

/-- Split into 64-byte blocks, driven by a block count for structural
recursion. -/
def toBlocksN : Nat → List Nat → List (List Nat)
  | 0, _ => []
  | n + 1, l => l.take 64 :: toBlocksN n (l.drop 64)

/-- The four bytes of a 32-bit word, little-endian. -/
def wordBytesLE (x : Nat) : List Nat :=
  [x % 256, (x >>> 8) % 256, (x >>> 16) % 256, (x >>> 24) % 256]

/-- MD5 digest (16 bytes) of a byte string. -/
def md5Bytes (msg : List Nat) : List Nat :=
  let padded := padMsg msg
  let final := (toBlocksN (padded.length / 64) padded).foldl processBlock mdInit
  wordBytesLE final.a ++ wordBytesLE final.b ++
    wordBytesLE final.c ++ wordBytesLE final.d

/-- UTF-8 encoding of one character (what `Buffer` and `hash.update`
use for JavaScript strings). -/
def utf8Bytes (c : Char) : List Nat :=
  let n := c.toNat
  if n < 128 then [n]
  else if n < 2048 then [192 + n / 64, 128 + n % 64]
  else if n < 65536 then
    [224 + n / 4096, 128 + (n / 64) % 64, 128 + n % 64]
  else
    [240 + n / 262144, 128 + (n / 4096) % 64, 128 + (n / 64) % 64,
     128 + n % 64]

/-- UTF-8 bytes of a string. -/
def strBytes (s : String) : List Nat :=
  s.data.foldr (fun c acc => utf8Bytes c ++ acc) []

/-- `readUInt32BE(0)`: big-endian 32-bit word from the first 4 bytes. -/
def readUInt32BE (bytes : List Nat) : Nat :=
  bytes.getD 0 0 * 16777216 + bytes.getD 1 0 * 65536 +
    bytes.getD 2 0 * 256 + bytes.getD 3 0

/-- The session hash bucket of both assignment resolvers:
`createHash("md5").update(sessionId).digest().readUInt32BE(0) % 1_000_000`. -/
def hashBucket (sessionId : String) : Nat :=
  readUInt32BE (md5Bytes (strBytes sessionId)) % 1000000

set_option maxRecDepth 4096

/-- The embedding of MD5 agrees with the reference digest of the
string s1: its first four bytes, read big-endian and reduced modulo
1,000,000, give bucket 236,672. -/
theorem hashBucket_s1 : hashBucket "s1" = 236672 := by decide

/-! ## The versioned cache store

One cache entry per key: all known versions plus a pointer to the
latest-known version.  The models module calls the pointer `latest`,
the prompt module calls it `current`; the shape is identical, so one
generic structure is used with the models name. -/

/-- A versioned cache entry (`{ versions, latest }` resp.
`{ versions, current }` in the source). -/
structure VCache (α : Type) where
  versions : List (Nat × α)
  latest : Option Nat
deriving DecidableEq, Repr

/-- The bulk-fetch upsert: create the entry if missing, store the
config under its version, and set the latest pointer to that version
(`cached.versions.set(version, c); cached.latest = version`). -/
def bulkUpsert {α : Type} (cache : List (String × VCache α))
    (key : String) (version : Nat) (val : α) : List (String × VCache α) :=
  let entry := (lookupA cache key).getD ⟨[], none⟩
  setA cache key ⟨setA entry.versions version val, some version⟩

/-- The single-version-fetch upsert: create the entry if missing and
store the config under its version; the latest pointer is not touched
(`configCache.get(configKey)!.versions.set(version, config)`). -/
def soloUpsert {α : Type} (cache : List (String × VCache α))
    (key : String) (version : Nat) (val : α) : List (String × VCache α) :=
  let entry := (lookupA cache key).getD ⟨[], none⟩
  setA cache key ⟨setA entry.versions version val, entry.latest⟩

/-! ## The models module (model A/B assignment) -/

namespace Models

/-- `interface Variant { model: string; weight: number }`.  Weights
are JavaScript numbers; on the percentage range used by configs they
behave as exact rationals, so they are embedded as `ℚ`. -/
structure Variant where
  model : String
  weight : ℚ
deriving DecidableEq, Repr

/-- `interface Config { key; version; variants }`.  The source accepts
a list or a keyed map of variants and normalizes the map with
`Object.values` into a list in insertion order; the embedding carries
the normalized ordered list. -/
structure Config where
  key : String
  version : Nat
  variants : List Variant
deriving DecidableEq, Repr

/-- Module state of the models module: credential, base URL, the
initialized flag, whether the sync timer exists, and the config
cache. -/
structure ModelsState where
  apiKey : Option String
  baseUrl : String
  initialized : Bool
  syncIntervalSet : Bool
  configCache : List (String × VCache Config)
deriving DecidableEq, Repr

/-- The process environment variables the models module reads. -/
structure Env where
  fallomApiKey : Option String
  fallomConfigsUrl : Option String
  fallomBaseUrl : Option String
deriving DecidableEq, Repr

/-- What the remote config source would answer: the bulk
`GET /configs` response (`none` models a network failure, timeout or
non-2xx status) and the per-key single-version
`GET /configs/key/version/v` response. -/
structure Remote where
  configsResp : Option (List Config)
  specificResp : String → Nat → Option Config

/-- Observable effects of a call.  Fire-and-forget operations
(the background fetch started by init, the session recording) are
recorded as events and not applied, matching their non-awaited
semantics. -/
inductive Ev where
  | fetchAll : Ev
  | fetchOne : String → Nat → Ev
  | record : String → Nat → String → String → Ev
  | bgFetch : Ev
deriving DecidableEq, Repr

/-- Options of `init`. -/
structure InitOpts where
  apiKey : Option String := none
  baseUrl : Option String := none
deriving DecidableEq, Repr

/-- `init(options)`: re-assigns the credential and base URL from
options and environment, marks the module initialized, and - when a
credential is present - starts a background fetch and, only if absent
so far, the 30-second sync timer. -/
def init (opts : InitOpts) (env : Env) (st : ModelsState) :
    ModelsState × List Ev :=
  let key := firstTruthyOpt [opts.apiKey, env.fallomApiKey]
  let url := firstTruthyStr [opts.baseUrl, env.fallomConfigsUrl, env.fallomBaseUrl]
    "https://configs.fallom.com"
  let st := { st with apiKey := key, baseUrl := url, initialized := true }
  match key with
  | none => (st, [])
  | some _ =>
      if st.syncIntervalSet then (st, [Ev.bgFetch])
      else ({ st with syncIntervalSet := true }, [Ev.bgFetch])

/-- `ensureInit()`: init with empty options when not yet initialized. -/
def ensureInit (env : Env) (st : ModelsState) : ModelsState × List Ev :=
  if st.initialized then (st, []) else init {} env st

/-- `c.version || 1`: a falsy (zero) version is replaced by 1. -/
def normVer (v : Nat) : Nat := if v = 0 then 1 else v

/-- The awaited `fetchConfigs()`: on a successful response every
received config is upserted (bulk style, setting `latest`); on any
failure, and without a credential, the cache is left untouched. -/
def fetchConfigs (st : ModelsState) (r : Remote) : ModelsState :=
  match st.apiKey with
  | none => st
  | some _ =>
      match r.configsResp with
      | none => st
      | some cs =>
          let cc := cs.foldl
            (fun cc c => bulkUpsert cc c.key (normVer c.version) c)
            st.configCache
          { st with configCache := cc }

/-- The awaited `fetchSpecificVersion(configKey, version)`: on success
the config is stored (without touching `latest`) and returned. -/
def fetchSpecificVersion (st : ModelsState) (r : Remote)
    (configKey : String) (version : Nat) : Option Config × ModelsState :=
  match st.apiKey with
  | none => (none, st)
  | some _ =>
      match r.specificResp configKey version with
      | some cfg =>
          (some cfg,
           { st with configCache := soloUpsert st.configCache configKey version cfg })
      | none => (none, st)

/-- The error message for an unknown config key (quote characters
around the key are omitted). -/
def notFoundMsg (configKey : String) : String :=
  "Config " ++ configKey ++ " not found. Check that it exists in your Fallom dashboard."

/-- The error message for an unknown pinned version. -/
def versionNotFoundMsg (configKey : String) (version : Nat) : String :=
  "Config " ++ configKey ++ " version " ++ toString version ++ " not found."

/-- The error message when the latest pointer has no cached config. -/
def noCachedMsg (configKey : String) : String :=
  "Config " ++ configKey ++ " has no cached version."

/-- The message of the TypeError raised by
`variants[variants.length - 1].model` on an empty variants array. -/
def typeErrorMsg : String :=
  "Cannot read properties of undefined (reading model)"

/-- The weight walk of `get`: `cumulative += v.weight * 10000`, first
variant with `hashVal < cumulative` wins, `break`; the assigned model
starts out as the last variant. -/
def selectGo (hashVal : Nat) : List Variant → ℚ → String → String
  | [], _, assigned => assigned
  | v :: rest, cumulative, assigned =>
      let c := cumulative + v.weight * 10000
      if (hashVal : ℚ) < c then v.model else selectGo hashVal rest c assigned

/-- The inline assignment block of `get`: hash the session id, seed
the assignment with the last variant (a TypeError on an empty list)
and run the weight walk. -/
def selectModel (variants : List Variant) (hashVal : Nat) : Option String :=
  match variants.getLast? with
  | none => none
  | some lastV => some (selectGo hashVal variants 0 lastV.model)

/-- The tail of the try block once a config is in hand: version
normalization (`config.version || targetVersion`), session hash, and
the weight walk; an empty variants list raises the TypeError. -/
def finishAssign (config : Config) (targetVersion : Nat)
    (sessionId : String) (st : ModelsState) (evs : List Ev) :
    Except String (String × Nat) × ModelsState × List Ev :=
  let configVersion := if config.version = 0 then targetVersion else config.version
  let hashVal := hashBucket sessionId
  match selectModel config.variants hashVal with
  | none => (Except.error typeErrorMsg, st, evs)
  | some assigned => (Except.ok (assigned, configVersion), st, evs)

/-- The version branch of the try block, entered with a cache entry in
hand: resolve the pinned version (with one on-demand single-version
fetch) or the latest pointer, falling back resp. throwing when absent. -/
def getWithEntry (st : ModelsState) (r : Remote) (configKey sessionId : String)
    (version : Option Nat) (fallback : Option String)
    (configData : VCache Config) (evs : List Ev) :
    Except String (String × Nat) × ModelsState × List Ev :=
  match version with
  | some v =>
      match lookupA configData.versions v with
      | some config => finishAssign config v sessionId st evs
      | none =>
          let fs := fetchSpecificVersion st r configKey v
          let evs := evs ++ [Ev.fetchOne configKey v]
          match fs.1 with
          | some config => finishAssign config v sessionId fs.2 evs
          | none =>
              if truthy fallback then
                (Except.ok (fallback.getD "", 0), fs.2, evs)
              else
                (Except.error (versionNotFoundMsg configKey v), fs.2, evs)
  | none =>
      match configData.latest with
      | some lv =>
          match lookupA configData.versions lv with
          | some config => finishAssign config lv sessionId st evs
          | none =>
              if truthy fallback then (Except.ok (fallback.getD "", 0), st, evs)
              else (Except.error (noCachedMsg configKey), st, evs)
      | none =>
          if truthy fallback then (Except.ok (fallback.getD "", 0), st, evs)
          else (Except.error (noCachedMsg configKey), st, evs)

/-- The try block of `get`: ensure init, look the key up, on a miss
run one awaited bulk fetch and look again, then hand over to the
version branch; an unknown key falls back or throws. -/
def getTry (st : ModelsState) (r : Remote) (env : Env)
    (configKey sessionId : String) (version : Option Nat)
    (fallback : Option String) :
    Except String (String × Nat) × ModelsState × List Ev :=
  let e := ensureInit env st
  match lookupA e.1.configCache configKey with
  | some configData =>
      getWithEntry e.1 r configKey sessionId version fallback configData e.2
  | none =>
      let st1 := fetchConfigs e.1 r
      let evs := e.2 ++ [Ev.fetchAll]
      match lookupA st1.configCache configKey with
      | some configData =>
          getWithEntry st1 r configKey sessionId version fallback configData evs
      | none =>
          if truthy fallback then (Except.ok (fallback.getD "", 0), st1, evs)
          else (Except.error (notFoundMsg configKey), st1, evs)

/-- `get(configKey, sessionId, options)`: the try block wrapped in the
catch block (errors whose message includes "not found" are re-thrown,
anything else returns the fallback when one is truthy) and in
`returnModel` (a fire-and-forget record event when the version is
positive). -/
def get (st : ModelsState) (r : Remote) (env : Env)
    (configKey sessionId : String) (version : Option Nat)
    (fallback : Option String) :
    Except String String × ModelsState × List Ev :=
  match getTry st r env configKey sessionId version fallback with
  | (Except.ok mv, st', evs) =>
      let evs := if mv.2 > 0 then
          evs ++ [Ev.record configKey mv.2 sessionId mv.1] else evs
      (Except.ok mv.1, st', evs)
  | (Except.error msg, st', evs) =>
      if msgHasNotFound msg then (Except.error msg, st', evs)
      else if truthy fallback then (Except.ok (fallback.getD ""), st', evs)
      else (Except.error msg, st', evs)

end Models

/-! ## Template interpolation (prompt module)

`replaceVariables` in the source applies the JavaScript regex replace
`template.replace(/\{\{(\s*\w+\s*)\}\}/g, ...)`.  The embedding is a
left-to-right scan: at each position it tries to match two opening
braces, optional whitespace, at least one word character, optional
whitespace and two closing braces; scanning resumes after a match.
The source decides a match with `key in variables`, and the
JavaScript in operator walks the prototype chain: on a plain object it
also finds the properties inherited from Object.prototype, so for
example the name toString is "in" an empty variables object and gets
substituted with the stringified inherited function.  The embedding
models this with `jsLookup`: the own keys of the variables first,
then the Object.prototype properties with the strings Node (V8)
renders for their values. -/

/-- The opening brace character. -/
def lbrace : Char := Char.ofNat 123

/-- The closing brace character. -/
def rbrace : Char := Char.ofNat 125

/-- ASCII word character, the class of the regex `\w`. -/
def isWordChar (c : Char) : Bool :=
  (65 ≤ c.toNat && c.toNat ≤ 90) || (97 ≤ c.toNat && c.toNat ≤ 122) ||
    (48 ≤ c.toNat && c.toNat ≤ 57) || c.toNat == 95

/-- Whitespace, the class of the regex `\s`: ASCII whitespace plus
the Unicode whitespace code points (no-break space, ogham space mark,
the en-quad through hair-space range, line and paragraph separator,
narrow no-break space, medium mathematical space, ideographic space,
and the byte-order mark). -/
def isSpaceChar (c : Char) : Bool :=
  c.toNat == 32 || c.toNat == 9 || c.toNat == 10 || c.toNat == 11 ||
    c.toNat == 12 || c.toNat == 13 || c.toNat == 160 || c.toNat == 5760 ||
    (8192 ≤ c.toNat && c.toNat ≤ 8202) || c.toNat == 8232 ||
    c.toNat == 8233 || c.toNat == 8239 || c.toNat == 8287 ||
    c.toNat == 12288 || c.toNat == 65279

/-- Try to match the placeholder regex at the head of the input;
on success returns the trimmed variable name, the full matched text
and the rest of the input. -/
def tryPlaceholder (cs : List Char) : Option (List Char × List Char × List Char) :=
  match cs with
  | c1 :: c2 :: r =>
      if c1 == lbrace && c2 == lbrace then
        let ws1 := r.takeWhile isSpaceChar
        let r1 := r.dropWhile isSpaceChar
        let w := r1.takeWhile isWordChar
        let r2 := r1.dropWhile isWordChar
        if w.isEmpty then none
        else
          let ws2 := r2.takeWhile isSpaceChar
          let r3 := r2.dropWhile isSpaceChar
          match r3 with
          | d1 :: d2 :: rest =>
              if d1 == rbrace && d2 == rbrace then
                some (w, lbrace :: lbrace :: (ws1 ++ w ++ ws2 ++ [rbrace, rbrace]), rest)
              else none
          | _ => none
      else none
  | _ => none

/-- `String(variables[name])` for the properties every plain object
inherits from Object.prototype, as Node (V8) renders them.  The in
operator of the source finds these names on any variables object. -/
def protoProps : List (String × String) :=
  [("constructor", "function Object() \x7b [native code] \x7d"),
   ("hasOwnProperty", "function hasOwnProperty() \x7b [native code] \x7d"),
   ("isPrototypeOf", "function isPrototypeOf() \x7b [native code] \x7d"),
   ("propertyIsEnumerable",
     "function propertyIsEnumerable() \x7b [native code] \x7d"),
   ("toLocaleString", "function toLocaleString() \x7b [native code] \x7d"),
   ("toString", "function toString() \x7b [native code] \x7d"),
   ("valueOf", "function valueOf() \x7b [native code] \x7d"),
   ("__defineGetter__", "function __defineGetter__() \x7b [native code] \x7d"),
   ("__defineSetter__", "function __defineSetter__() \x7b [native code] \x7d"),
   ("__lookupGetter__", "function __lookupGetter__() \x7b [native code] \x7d"),
   ("__lookupSetter__", "function __lookupSetter__() \x7b [native code] \x7d"),
   ("__proto__", "[object Object]")]

/-- `key in variables` followed by `String(variables[key])`: the own
keys of the variables object shadow the prototype; a name that is
neither an own key nor an Object.prototype property yields none
(placeholder kept verbatim). -/
def jsLookup (vars : List (String × String)) (key : String) : Option String :=
  match lookupA vars key with
  | some v => some v
  | none => lookupA protoProps key

/-- The scan of the global regex replace.  The fuel argument only
bounds the recursion (each step consumes at least one character); it
is started at the length of the template. -/
def interpolateGo (vars : List (String × String)) :
    Nat → List Char → List Char
  | 0, cs => cs
  | _ + 1, [] => []
  | fuel + 1, c :: rest =>
      match tryPlaceholder (c :: rest) with
      | some (name, matched, after) =>
          (match jsLookup vars (String.mk name) with
           | some v => v.data
           | none => matched) ++ interpolateGo vars fuel after
      | none => c :: interpolateGo vars fuel rest

/-- `replaceVariables(template, variables)`: the identity without a
variables object, otherwise one pass of the placeholder replacement.
Variable values are embedded as the strings `String(value)` yields. -/
def replaceVariables (template : String)
    (varsOpt : Option (List (String × String))) : String :=
  match varsOpt with
  | none => template
  | some vars => String.mk (interpolateGo vars template.data.length template.data)

/-! ## The prompt module (trace/core.ts) -/

namespace Prompts

/-- Cached content of one prompt version
(`{ systemPrompt, userTemplate }`). -/
structure PromptContent where
  systemPrompt : String
  userTemplate : String
deriving DecidableEq, Repr

/-- `interface PromptABVariant { prompt_key; prompt_version; weight }`. -/
structure PromptABVariant where
  prompt_key : String
  prompt_version : Option Nat
  weight : ℚ
deriving DecidableEq, Repr

/-- `interface PromptABVersion { variants }`. -/
structure PromptABVersion where
  variants : List PromptABVariant
deriving DecidableEq, Repr

/-- `interface PromptContext`: the one-shot context stored for the
next trace. -/
structure PromptContext where
  promptKey : String
  promptVersion : Nat
  abTestKey : Option String
  variantIndex : Option Nat
deriving DecidableEq, Repr

/-- `interface PromptResult`: what `get` and `getAB` resolve to. -/
structure PromptResult where
  key : String
  version : Nat
  system : String
  user : String
  abTestKey : Option String
  variantIndex : Option Nat
deriving DecidableEq, Repr

/-- Module state of the prompt module.  The source names the latest
pointer of both caches `current`; the shared `VCache` structure calls
it `latest`. -/
structure PromptsState where
  apiKey : Option String
  baseUrl : String
  initialized : Bool
  syncIntervalSet : Bool
  promptCache : List (String × VCache PromptContent)
  promptABCache : List (String × VCache PromptABVersion)
  promptContext : Option PromptContext
deriving DecidableEq, Repr

/-- A prompt row of the bulk `GET /prompts` response. -/
structure PromptIn where
  key : String
  version : Nat
  system_prompt : String
  user_template : String
deriving DecidableEq, Repr

/-- A row of the bulk `GET /prompt-ab-tests` response. -/
structure ABIn where
  key : String
  version : Nat
  variants : List PromptABVariant
deriving DecidableEq, Repr

/-- What the remote prompt source would answer (`none` is a failed
request). -/
structure PRemote where
  promptsResp : Option (List PromptIn)
  abResp : Option (List ABIn)

/-- Environment variables read by the prompt module init. -/
structure PEnv where
  fallomApiKey : Option String
  fallomPromptsUrl : Option String
  fallomBaseUrl : Option String
deriving DecidableEq, Repr

/-- Observable effects of a prompt-module call.  There is no
single-version fetch operation in this module. -/
inductive PEv where
  | fetchPrompts : PEv
  | fetchABTests : PEv
  | bgFetch : PEv
deriving DecidableEq, Repr

/-- Options of the prompt-module `init`. -/
structure PInitOpts where
  apiKey : Option String := none
  baseUrl : Option String := none
deriving DecidableEq, Repr

/-- The prompt-module `init(options)`: like the models one, it
re-assigns credential and base URL, marks initialized, and guards only
the sync timer. -/
def init (opts : PInitOpts) (env : PEnv) (st : PromptsState) :
    PromptsState × List PEv :=
  let key := firstTruthyOpt [opts.apiKey, env.fallomApiKey]
  let url := firstTruthyStr [opts.baseUrl, env.fallomPromptsUrl, env.fallomBaseUrl]
    "https://prompts.fallom.com"
  let st := { st with apiKey := key, baseUrl := url, initialized := true }
  match key with
  | none => (st, [])
  | some _ =>
      if st.syncIntervalSet then (st, [PEv.bgFetch])
      else ({ st with syncIntervalSet := true }, [PEv.bgFetch])

/-- `ensureInit()` of the prompt module. -/
def ensureInit (env : PEnv) (st : PromptsState) : PromptsState × List PEv :=
  if st.initialized then (st, []) else init {} env st

/-- The awaited `fetchPrompts()`: bulk upsert of every received
prompt, setting the current pointer. -/
def fetchPrompts (st : PromptsState) (r : PRemote) : PromptsState :=
  match st.apiKey with
  | none => st
  | some _ =>
      match r.promptsResp with
      | none => st
      | some ps =>
          let pc := ps.foldl
            (fun cc p => bulkUpsert cc p.key p.version
              (PromptContent.mk p.system_prompt p.user_template))
            st.promptCache
          { st with promptCache := pc }

/-- The awaited `fetchPromptABTests()`: bulk upsert of every received
A/B test, setting the current pointer. -/
def fetchPromptABTests (st : PromptsState) (r : PRemote) : PromptsState :=
  match st.apiKey with
  | none => st
  | some _ =>
      match r.abResp with
      | none => st
      | some ts =>
          let pc := ts.foldl
            (fun cc t => bulkUpsert cc t.key t.version (PromptABVersion.mk t.variants))
            st.promptABCache
          { st with promptABCache := pc }

/-- `getPromptContext()`: return the stored context and clear it
(one-shot). -/
def getPromptContext (st : PromptsState) : Option PromptContext × PromptsState :=
  (st.promptContext, { st with promptContext := none })

/-- The prompt not-found message of `get` (quote characters omitted). -/
def promptNotFoundMsg (promptKey : String) : String :=
  "Prompt " ++ promptKey ++ " not found. Check that it exists in your Fallom dashboard."

/-- The version-not-found message of `get` and `getAB`; the version is
rendered as text since a missing current pointer prints as null. -/
def promptVerMsg (promptKey vs : String) : String :=
  "Prompt " ++ promptKey ++ " version " ++ vs ++ " not found."

/-- `prompts.get(promptKey, options)`: cache lookup with one awaited
bulk fetch on a miss, version pin via `version ?? current`, template
interpolation, and the one-shot context store.  A pinned version that
is absent from the versions map throws immediately - this module has
no single-version fetch. -/
def get (st : PromptsState) (r : PRemote) (env : PEnv) (promptKey : String)
    (varsOpt : Option (List (String × String))) (version : Option Nat) :
    Except String PromptResult × PromptsState × List PEv :=
  let e := ensureInit env st
  let le : Option (VCache PromptContent) × PromptsState × List PEv :=
    match lookupA e.1.promptCache promptKey with
    | some pd => (some pd, e.1, e.2)
    | none =>
        let st1 := fetchPrompts e.1 r
        (lookupA st1.promptCache promptKey, st1, e.2 ++ [PEv.fetchPrompts])
  match le with
  | (none, st1, evs) => (Except.error (promptNotFoundMsg promptKey), st1, evs)
  | (some promptData, st1, evs) =>
      match version.orElse (fun _ => promptData.latest) with
      | none => (Except.error (promptVerMsg promptKey "null"), st1, evs)
      | some targetVersion =>
          match lookupA promptData.versions targetVersion with
          | none =>
              (Except.error (promptVerMsg promptKey (toString targetVersion)), st1, evs)
          | some content =>
              let system := replaceVariables content.systemPrompt varsOpt
              let user := replaceVariables content.userTemplate varsOpt
              let ctx : PromptContext := ⟨promptKey, targetVersion, none, none⟩
              (Except.ok ⟨promptKey, targetVersion, system, user, none, none⟩,
               { st1 with promptContext := some ctx }, evs)

/-- The weight walk of `getAB`, tracking the selected index; the
selection is seeded with the last variant and its index. -/
def selectABGo (hashVal : Nat) :
    List PromptABVariant → Nat → ℚ → PromptABVariant × Nat → PromptABVariant × Nat
  | [], _, _, sel => sel
  | v :: rest, i, cumulative, sel =>
      let c := cumulative + v.weight * 10000
      if (hashVal : ℚ) < c then (v, i) else selectABGo hashVal rest (i + 1) c sel

/-- `prompts.getAB(abTestKey, sessionId, options)`: A/B cache lookup
with one awaited bulk fetch on a miss, current version lookup, the
zero-variant guard, the session-hash weight walk, a second resolution
of the selected variant through the prompt cache (with one awaited
bulk prompt fetch on a miss), interpolation, and the one-shot
context store including test key and variant index. -/
def getAB (st : PromptsState) (r : PRemote) (env : PEnv)
    (abTestKey sessionId : String)
    (varsOpt : Option (List (String × String))) :
    Except String PromptResult × PromptsState × List PEv :=
  let e := ensureInit env st
  let le : Option (VCache PromptABVersion) × PromptsState × List PEv :=
    match lookupA e.1.promptABCache abTestKey with
    | some ab => (some ab, e.1, e.2)
    | none =>
        let st1 := fetchPromptABTests e.1 r
        (lookupA st1.promptABCache abTestKey, st1, e.2 ++ [PEv.fetchABTests])
  match le with
  | (none, st1, evs) =>
      (Except.error ("Prompt A/B test " ++ abTestKey ++
        " not found. Check that it exists in your Fallom dashboard."), st1, evs)
  | (some abData, st1, evs) =>
      match abData.latest.bind (fun cv => lookupA abData.versions cv) with
      | none =>
          (Except.error ("Prompt A/B test " ++ abTestKey ++ " has no current version."),
           st1, evs)
      | some versionData =>
          match versionData.variants.getLast? with
          | none =>
              (Except.error ("Prompt A/B test " ++ abTestKey ++
                " has no variants configured."), st1, evs)
          | some lastV =>
              let variants := versionData.variants
              let hashVal := hashBucket sessionId
              let sel := selectABGo hashVal variants 0 0 (lastV, variants.length - 1)
              let promptKey := sel.1.prompt_key
              let le2 : Option (VCache PromptContent) × PromptsState × List PEv :=
                match lookupA st1.promptCache promptKey with
                | some pd => (some pd, st1, evs)
                | none =>
                    let st2 := fetchPrompts st1 r
                    (lookupA st2.promptCache promptKey, st2, evs ++ [PEv.fetchPrompts])
              match le2 with
              | (none, st2, evs2) =>
                  (Except.error ("Prompt " ++ promptKey ++ " (from A/B test " ++
                    abTestKey ++ ") not found."), st2, evs2)
              | (some promptData, st2, evs2) =>
                  match sel.1.prompt_version.orElse (fun _ => promptData.latest) with
                  | none =>
                      (Except.error (promptVerMsg promptKey "null"), st2, evs2)
                  | some targetVersion =>
                      match lookupA promptData.versions targetVersion with
                      | none =>
                          (Except.error (promptVerMsg promptKey (toString targetVersion)),
                           st2, evs2)
                      | some content =>
                          let system := replaceVariables content.systemPrompt varsOpt
                          let user := replaceVariables content.userTemplate varsOpt
                          let ctx : PromptContext :=
                            ⟨promptKey, targetVersion, some abTestKey, some sel.2⟩
                          (Except.ok ⟨promptKey, targetVersion, system, user,
                            some abTestKey, some sel.2⟩,
                           { st2 with promptContext := some ctx }, evs2)

end Prompts

/-! ## Helper lemmas on association lists and upserts -/

theorem lookupA_setA_self {K V : Type} [BEq K] [LawfulBEq K]
    (m : List (K × V)) (k : K) (v : V) :
    lookupA (setA m k v) k = some v := by
  induction m with
  | nil => simp [setA, lookupA]
  | cons p t ih =>
      obtain ⟨k0, v0⟩ := p
      by_cases h0 : k0 = k
      · simp [setA, lookupA, h0]
      · simp [setA, lookupA, h0, ih]

theorem lookupA_setA_ne {K V : Type} [BEq K] [LawfulBEq K]
    (m : List (K × V)) (k k' : K) (v : V)
    (h : k' ≠ k) : lookupA (setA m k v) k' = lookupA m k' := by
  have hk : ¬ k = k' := fun hh => h hh.symm
  induction m with
  | nil => simp [setA, lookupA, hk]
  | cons p t ih =>
      obtain ⟨k0, v0⟩ := p
      by_cases h0 : k0 = k
      · subst h0
        simp [setA, lookupA, hk]
      · by_cases h1 : k0 = k'
        · subst h1
          simp [setA, lookupA, h0]
        · simp [setA, lookupA, h0, h1, ih]

/-! ## The cache invariant and cache growth -/

/-- The entry half of the cache invariant: a non-null latest pointer
has a corresponding entry in the versions map. -/
def entryOK {α : Type} (e : VCache α) : Bool :=
  match e.latest with
  | none => true
  | some lv => (lookupA e.versions lv).isSome

/-- The cache invariant of the spec, for every entry of the cache. -/
def cacheOK {α : Type} (cache : List (String × VCache α)) : Bool :=
  cache.all fun p => entryOK p.2

/-- Cache growth: every key keeps an entry and no stored version
disappears from its versions map. -/
def grows {α : Type} (c c' : List (String × VCache α)) : Prop :=
  ∀ k e, lookupA c k = some e →
    ∃ e', lookupA c' k = some e' ∧
      ∀ v, (lookupA e.versions v).isSome = true →
        (lookupA e'.versions v).isSome = true

theorem grows_refl {α : Type} (c : List (String × VCache α)) : grows c c :=
  fun _ e hk => ⟨e, hk, fun _ hv => hv⟩

theorem grows_trans {α : Type} {a b c : List (String × VCache α)}
    (h1 : grows a b) (h2 : grows b c) : grows a c := by
  intro k e hk
  obtain ⟨e1, hb, hv1⟩ := h1 k e hk
  obtain ⟨e2, hc, hv2⟩ := h2 k e1 hb
  exact ⟨e2, hc, fun v hv => hv2 v (hv1 v hv)⟩

theorem entryOK_of_lookup {α : Type} {cache : List (String × VCache α)}
    {k : String} {e : VCache α} (hc : cacheOK cache = true)
    (hk : lookupA cache k = some e) : entryOK e = true := by
  induction cache with
  | nil => simp [lookupA] at hk
  | cons p t ih =>
      obtain ⟨k0, e0⟩ := p
      simp only [cacheOK, List.all_cons, Bool.and_eq_true] at hc
      by_cases h0 : k0 = k
      · simp [lookupA, h0] at hk
        subst hk
        exact hc.1
      · simp only [lookupA, beq_iff_eq, h0, if_false] at hk
        exact ih hc.2 hk

theorem cacheOK_setA {α : Type} {cache : List (String × VCache α)}
    {k : String} {e : VCache α} (hc : cacheOK cache = true)
    (he : entryOK e = true) : cacheOK (setA cache k e) = true := by
  induction cache with
  | nil => simp [setA, cacheOK, he]
  | cons p t ih =>
      obtain ⟨k0, e0⟩ := p
      simp only [cacheOK, List.all_cons, Bool.and_eq_true] at hc
      by_cases h0 : k0 = k
      · simp [setA, h0, cacheOK, he, hc.2]
      · have := ih hc.2
        simp only [cacheOK, List.all] at this
        simp [setA, h0, cacheOK, hc.1, this]

/-- Both upserts write `setA cache key ⟨setA entry.versions version val, L⟩`
for the respective latest pointer `L`; this lemma covers both. -/
theorem grows_upsert {α : Type} (cache : List (String × VCache α))
    (key : String) (version : Nat) (val : α) (L : Option Nat) :
    grows cache
      (setA cache key
        ⟨setA ((lookupA cache key).getD ⟨[], none⟩).versions version val, L⟩) := by
  intro k e hk
  by_cases hkey : k = key
  · subst hkey
    refine ⟨_, lookupA_setA_self _ _ _, ?_⟩
    intro v hv
    simp only [hk, Option.getD_some]
    by_cases hv0 : v = version
    · subst hv0
      simp [lookupA_setA_self]
    · rw [lookupA_setA_ne _ _ _ _ hv0]
      exact hv
  · refine ⟨e, ?_, fun _ hv => hv⟩
    rw [lookupA_setA_ne _ _ _ _ hkey]
    exact hk

theorem grows_bulkUpsert {α : Type} (cache : List (String × VCache α))
    (key : String) (version : Nat) (val : α) :
    grows cache (bulkUpsert cache key version val) :=
  grows_upsert cache key version val (some version)

theorem grows_soloUpsert {α : Type} (cache : List (String × VCache α))
    (key : String) (version : Nat) (val : α) :
    grows cache (soloUpsert cache key version val) :=
  grows_upsert cache key version val
    ((lookupA cache key).getD ⟨[], none⟩).latest

theorem cacheOK_bulkUpsert {α : Type} {cache : List (String × VCache α)}
    (hc : cacheOK cache = true) (key : String) (version : Nat) (val : α) :
    cacheOK (bulkUpsert cache key version val) = true := by
  refine cacheOK_setA hc ?_
  simp [entryOK, lookupA_setA_self]

theorem cacheOK_soloUpsert {α : Type} {cache : List (String × VCache α)}
    (hc : cacheOK cache = true) (key : String) (version : Nat) (val : α) :
    cacheOK (soloUpsert cache key version val) = true := by
  refine cacheOK_setA hc ?_
  simp only [entryOK]
  cases hl : lookupA cache key with
  | none => simp [hl]
  | some e =>
      have he := entryOK_of_lookup hc hl
      simp only [entryOK] at he
      cases he2 : e.latest with
      | none => simp [hl, he2]
      | some lv =>
          rw [he2] at he
          simp only [hl, Option.getD_some, he2]
          by_cases hv : lv = version
          · subst hv
            simp [lookupA_setA_self]
          · rw [lookupA_setA_ne _ _ _ _ hv]
            exact he

theorem grows_foldl {α β : Type} (step : List (String × VCache α) → β → List (String × VCache α))
    (hstep : ∀ cc b, grows cc (step cc b)) :
    ∀ (l : List β) (cc : List (String × VCache α)), grows cc (l.foldl step cc) := by
  intro l
  induction l with
  | nil => intro cc; exact grows_refl cc
  | cons b t ih =>
      intro cc
      exact grows_trans (hstep cc b) (ih (step cc b))

theorem cacheOK_foldl {α β : Type}
    (step : List (String × VCache α) → β → List (String × VCache α))
    (hstep : ∀ cc b, cacheOK cc = true → cacheOK (step cc b) = true) :
    ∀ (l : List β) (cc : List (String × VCache α)),
      cacheOK cc = true → cacheOK (l.foldl step cc) = true := by
  intro l
  induction l with
  | nil => intro cc hc; exact hc
  | cons b t ih =>
      intro cc hc
      exact ih (step cc b) (hstep cc b hc)

/-! ## Characterization of the weight walk (spec side)

The claim describes selection as: the first variant in list order
whose cumulative weight bound, the sum of the preceding and own
weights multiplied by 10,000, strictly exceeds the hash bucket; the
last variant when none qualifies.  `specFirstVariant` is that
description verbatim, to be compared with the loop from the source. -/

/-- First variant whose cumulative weight bound exceeds the bucket;
`pre` is the sum of the preceding weights. -/
def specFirstVariant (h : Nat) : List Models.Variant → ℚ → Option String
  | [], _ => none
  | v :: rest, pre =>
      if (h : ℚ) < (pre + v.weight) * 10000 then some v.model
      else specFirstVariant h rest (pre + v.weight)

/-- Same description for the indexed walk of the prompt A/B resolver. -/
def specFirstAB (h : Nat) :
    List Prompts.PromptABVariant → Nat → ℚ → Option (Prompts.PromptABVariant × Nat)
  | [], _, _ => none
  | v :: rest, i, pre =>
      if (h : ℚ) < (pre + v.weight) * 10000 then some (v, i)
      else specFirstAB h rest (i + 1) (pre + v.weight)

theorem selectGo_eq_spec (h : Nat) (vs : List Models.Variant) :
    ∀ (pre : ℚ) (dflt : String),
      Models.selectGo h vs (pre * 10000) dflt =
        (specFirstVariant h vs pre).getD dflt := by
  induction vs with
  | nil => intro pre dflt; rfl
  | cons v rest ih =>
      intro pre dflt
      have harith : pre * 10000 + v.weight * 10000 = (pre + v.weight) * 10000 := by
        ring
      simp only [Models.selectGo, specFirstVariant, harith]
      split
      · rfl
      · exact ih (pre + v.weight) dflt

theorem selectABGo_eq_spec (h : Nat) (vs : List Prompts.PromptABVariant) :
    ∀ (i : Nat) (pre : ℚ) (dflt : Prompts.PromptABVariant × Nat),
      Prompts.selectABGo h vs i (pre * 10000) dflt =
        (specFirstAB h vs i pre).getD dflt := by
  induction vs with
  | nil => intro i pre dflt; rfl
  | cons v rest ih =>
      intro i pre dflt
      have harith : pre * 10000 + v.weight * 10000 = (pre + v.weight) * 10000 := by
        ring
      simp only [Prompts.selectABGo, specFirstAB, harith]
      split
      · rfl
      · exact ih (i + 1) (pre + v.weight) dflt

/-! ## Claim C1: weighted selection -/

/-- C1: for every non-empty variant list, resolution selects the first
variant in list order whose cumulative weight bound (sum of preceding
and own weight, multiplied by 10,000) strictly exceeds the session
hash bucket, and the last variant of the list when no variant
qualifies; this holds for the model weight walk and for the indexed
prompt A/B weight walk, and concretely with variants
`[{A,40},{B,20}]` every bucket of at least 600,000 resolves to B. -/
theorem claim1_weighted_selection :
    (∀ (variants : List Models.Variant) (h : Nat) (hne : variants ≠ []),
       Models.selectModel variants h =
         some ((specFirstVariant h variants 0).getD
           ((variants.getLast hne).model))) ∧
    (∀ (vs : List Prompts.PromptABVariant) (h : Nat) (hne : vs ≠ []),
       Prompts.selectABGo h vs 0 0 (vs.getLast hne, vs.length - 1) =
         (specFirstAB h vs 0 0).getD (vs.getLast hne, vs.length - 1)) ∧
    (∀ h : Nat, 600000 ≤ h →
       Models.selectModel [⟨"A", 40⟩, ⟨"B", 20⟩] h = some "B") := by
  refine ⟨?_, ?_, ?_⟩
  · intro vs h hne
    rw [Models.selectModel, List.getLast?_eq_getLast vs hne]
    have hgo := selectGo_eq_spec h vs 0 ((vs.getLast hne).model)
    rw [zero_mul] at hgo
    show some (Models.selectGo h vs 0 ((vs.getLast hne).model)) = _
    rw [hgo]
  · intro vs h hne
    have hgo := selectABGo_eq_spec h vs 0 0 (vs.getLast hne, vs.length - 1)
    rw [zero_mul] at hgo
    exact hgo
  · intro h hh
    have hq : (600000 : ℚ) ≤ (h : ℚ) := by exact_mod_cast hh
    have c1 : ¬((h : ℚ) < 0 + 40 * 10000) := by
      intro hc
      norm_num at hc
      linarith
    have c2 : ¬((h : ℚ) < 0 + 40 * 10000 + 20 * 10000) := by
      intro hc
      norm_num at hc
      linarith
    simp only [Models.selectModel, List.getLast?, Models.selectGo]
    rw [if_neg c1, if_neg c2]
    rfl

/-- Witness for C1 at the bucket 700,000. -/
theorem claim1_witness :
    (600000 : Nat) ≤ 700000 ∧
    Models.selectModel [⟨"A", 40⟩, ⟨"B", 20⟩] 700000 = some "B" :=
  ⟨by norm_num, claim1_weighted_selection.2.2 700000 (by norm_num)⟩

/-! ## Claim C7: the cache invariant is preserved and caches only grow -/

/-- C7: every cache operation (background bulk sync, on-demand
fetch-all, single-version fetch, prompt and prompt A/B bulk fetches)
preserves the invariant that a non-null latest pointer has an entry in
the versions map, and only grows the versions maps - no stored version
is ever removed. -/
theorem claim7_cache_invariant :
    (∀ (st : Models.ModelsState) (r : Models.Remote),
       (cacheOK st.configCache = true →
          cacheOK (Models.fetchConfigs st r).configCache = true) ∧
       grows st.configCache (Models.fetchConfigs st r).configCache) ∧
    (∀ (st : Models.ModelsState) (r : Models.Remote) (k : String) (v : Nat),
       (cacheOK st.configCache = true →
          cacheOK (Models.fetchSpecificVersion st r k v).2.configCache = true) ∧
       grows st.configCache (Models.fetchSpecificVersion st r k v).2.configCache) ∧
    (∀ (st : Prompts.PromptsState) (r : Prompts.PRemote),
       (cacheOK st.promptCache = true →
          cacheOK (Prompts.fetchPrompts st r).promptCache = true) ∧
       grows st.promptCache (Prompts.fetchPrompts st r).promptCache) ∧
    (∀ (st : Prompts.PromptsState) (r : Prompts.PRemote),
       (cacheOK st.promptABCache = true →
          cacheOK (Prompts.fetchPromptABTests st r).promptABCache = true) ∧
       grows st.promptABCache (Prompts.fetchPromptABTests st r).promptABCache) := by
  refine ⟨?_, ?_, ?_, ?_⟩
  · intro st r
    cases hk : st.apiKey with
    | none => simp [Models.fetchConfigs, hk, grows_refl]
    | some key =>
        cases hr : r.configsResp with
        | none => simp [Models.fetchConfigs, hk, hr, grows_refl]
        | some cs =>
            simp only [Models.fetchConfigs, hk, hr]
            constructor
            · intro hc
              exact cacheOK_foldl _ (fun cc c h => cacheOK_bulkUpsert h _ _ _) cs
                st.configCache hc
            · exact grows_foldl _ (fun cc c => grows_bulkUpsert cc _ _ _) cs
                st.configCache
  · intro st r k v
    cases hk : st.apiKey with
    | none => simp [Models.fetchSpecificVersion, hk, grows_refl]
    | some key =>
        cases hr : r.specificResp k v with
        | none => simp [Models.fetchSpecificVersion, hk, hr, grows_refl]
        | some cfg =>
            simp only [Models.fetchSpecificVersion, hk, hr]
            exact ⟨fun hc => cacheOK_soloUpsert hc _ _ _, grows_soloUpsert _ _ _ _⟩
  · intro st r
    cases hk : st.apiKey with
    | none => simp [Prompts.fetchPrompts, hk, grows_refl]
    | some key =>
        cases hr : r.promptsResp with
        | none => simp [Prompts.fetchPrompts, hk, hr, grows_refl]
        | some ps =>
            simp only [Prompts.fetchPrompts, hk, hr]
            constructor
            · intro hc
              exact cacheOK_foldl _ (fun cc p h => cacheOK_bulkUpsert h _ _ _) ps
                st.promptCache hc
            · exact grows_foldl _ (fun cc p => grows_bulkUpsert cc _ _ _) ps
                st.promptCache
  · intro st r
    cases hk : st.apiKey with
    | none => simp [Prompts.fetchPromptABTests, hk, grows_refl]
    | some key =>
        cases hr : r.abResp with
        | none => simp [Prompts.fetchPromptABTests, hk, hr, grows_refl]
        | some ts =>
            simp only [Prompts.fetchPromptABTests, hk, hr]
            constructor
            · intro hc
              exact cacheOK_foldl _ (fun cc t h => cacheOK_bulkUpsert h _ _ _) ts
                st.promptABCache hc
            · exact grows_foldl _ (fun cc t => grows_bulkUpsert cc _ _ _) ts
                st.promptABCache

/-! ## Concrete states used by witnesses and counterexamples -/

/-- An empty process environment. -/
def wEnv : Models.Env := ⟨none, none, none⟩

/-- A single-variant config. -/
def wCfg : Models.Config := ⟨"ck", 1, [⟨"m", 100⟩]⟩

/-- A warm, initialized models state caching `wCfg`. -/
def wSt : Models.ModelsState :=
  ⟨some "key", "https://configs.fallom.com", true, true,
   [("ck", ⟨[(1, wCfg)], some 1⟩)]⟩

/-- A remote source that answers the bulk fetch with one config and
fails every single-version fetch. -/
def wR : Models.Remote :=
  ⟨some [⟨"ck", 2, [⟨"m2", 100⟩]⟩], fun _ _ => none⟩

/-- A remote source that answers the bulk fetch with an empty config
list and fails every single-version fetch. -/
def emptyR : Models.Remote := ⟨some [], fun _ _ => none⟩

/-- An initialized models state with an empty cache. -/
def emptySt : Models.ModelsState :=
  ⟨some "key", "https://configs.fallom.com", true, true, []⟩

/-- Witness for C7 on the concrete warm state and bulk response. -/
theorem claim7_witness :
    cacheOK (Models.fetchConfigs wSt wR).configCache = true :=
  (claim7_cache_invariant.1 wSt wR).1 (by decide)

/-! ## Claim C8: what each upsert does to the latest pointer -/

/-- The latest-known version pointer of a key, as stored in the models
cache. -/
def latestPtr (st : Models.ModelsState) (k : String) : Option Nat :=
  (lookupA st.configCache k).bind fun e => e.latest

theorem bulkUpsert_latest {α : Type} (cache : List (String × VCache α))
    (key : String) (version : Nat) (val : α) :
    (lookupA (bulkUpsert cache key version val) key).map (fun e => e.latest) =
      some (some version) := by
  rw [bulkUpsert, lookupA_setA_self]
  rfl

theorem soloUpsert_latest {α : Type} (cache : List (String × VCache α))
    (key k' : String) (version : Nat) (val : α) :
    (lookupA (soloUpsert cache key version val) k').bind (fun e => e.latest) =
      (lookupA cache k').bind (fun e => e.latest) := by
  by_cases hk : k' = key
  · subst hk
    rw [soloUpsert, lookupA_setA_self]
    cases hl : lookupA cache k' with
    | none => simp [hl]
    | some e => simp [hl]
  · rw [soloUpsert, lookupA_setA_ne _ _ _ _ hk]

/-- The config written back by version-2 of the counterexample. -/
def c8Cfg1 : Models.Config := ⟨"k", 1, [⟨"m1", 100⟩]⟩

/-- The cached latest config of the counterexample. -/
def c8Cfg2 : Models.Config := ⟨"k", 2, [⟨"m2", 100⟩]⟩

/-- A state whose cache knows key `k` at latest version 2 only. -/
def c8St : Models.ModelsState :=
  ⟨some "key", "https://configs.fallom.com", true, true,
   [("k", ⟨[(2, c8Cfg2)], some 2⟩)]⟩

/-- A remote source able to serve version 1 of key `k`. -/
def c8R : Models.Remote :=
  ⟨none, fun k v => if k == "k" && v == 1 then some c8Cfg1 else none⟩

/-- Counterexample to C8: the on-demand single-version fetch upserts
`(k, 1, c8Cfg1)` into the cache, yet the latest pointer of `k` stays
at 2 instead of being set to the written version 1. -/
theorem claim8_counterexample :
    (lookupA (Models.fetchSpecificVersion c8St c8R "k" 1).2.configCache "k").bind
        (fun e => lookupA e.versions 1) = some c8Cfg1 ∧
    latestPtr (Models.fetchSpecificVersion c8St c8R "k" 1).2 "k" = some 2 ∧
    latestPtr (Models.fetchSpecificVersion c8St c8R "k" 1).2 "k" ≠ some 1 := by
  refine ⟨by rfl, by rfl, ?_⟩
  intro h
  simp [latestPtr, Models.fetchSpecificVersion, c8St, c8R, soloUpsert, setA,
    lookupA, c8Cfg1] at h

/-- C8 amended: a bulk-fetch upsert sets the latest pointer of the
written key to the written version unconditionally, while the
on-demand single-version fetch stores the version without modifying
any latest pointer. -/
theorem claim8_latest_pointer :
    (∀ {α : Type} (cache : List (String × VCache α)) (key : String)
       (version : Nat) (val : α),
       (lookupA (bulkUpsert cache key version val) key).map (fun e => e.latest) =
         some (some version)) ∧
    (∀ (st : Models.ModelsState) (r : Models.Remote) (k : String) (v : Nat)
       (k' : String),
       latestPtr (Models.fetchSpecificVersion st r k v).2 k' = latestPtr st k') := by
  constructor
  · intro α cache key version val
    exact bulkUpsert_latest cache key version val
  · intro st r k v k'
    cases hk : st.apiKey with
    | none => simp [Models.fetchSpecificVersion, hk]
    | some key =>
        cases hr : r.specificResp k v with
        | none => simp [Models.fetchSpecificVersion, hk, hr]
        | some cfg =>
            simp only [Models.fetchSpecificVersion, hk, hr, latestPtr]
            exact soloUpsert_latest st.configCache k k' v cfg

/-! ## Claim C9: what a repeated init call does -/

/-- A completely fresh models state, as at process start. -/
def c9St0 : Models.ModelsState :=
  ⟨none, "https://configs.fallom.com", false, false, []⟩

/-- Counterexample to C9: after a first `init` with credential `a` the
engine is initialized, yet a second `init` with credential `b` is not
a no-op - it overwrites the stored credential. -/
theorem claim9_counterexample :
    (Models.init ⟨some "a", none⟩ wEnv c9St0).1.initialized = true ∧
    (Models.init ⟨some "b", none⟩ wEnv
        (Models.init ⟨some "a", none⟩ wEnv c9St0).1).1.apiKey = some "b" ∧
    (Models.init ⟨some "a", none⟩ wEnv c9St0).1.apiKey = some "a" := by
  refine ⟨rfl, rfl, rfl⟩

/-- C9 amended: repeated init calls are safe but not no-ops: every
call re-assigns the credential and base URL from its options and the
environment and marks the engine initialized; the config cache is
never touched and an existing sync timer is never replaced.  The same
holds for the prompt module init. -/
theorem claim9_init_behavior :
    (∀ (opts : Models.InitOpts) (env : Models.Env) (st : Models.ModelsState),
       (Models.init opts env st).1.configCache = st.configCache ∧
       (Models.init opts env st).1.initialized = true ∧
       (Models.init opts env st).1.apiKey =
         firstTruthyOpt [opts.apiKey, env.fallomApiKey] ∧
       (Models.init opts env st).1.baseUrl =
         firstTruthyStr [opts.baseUrl, env.fallomConfigsUrl, env.fallomBaseUrl]
           "https://configs.fallom.com" ∧
       (st.syncIntervalSet = true →
          (Models.init opts env st).1.syncIntervalSet = true)) ∧
    (∀ (opts : Prompts.PInitOpts) (env : Prompts.PEnv) (st : Prompts.PromptsState),
       (Prompts.init opts env st).1.promptCache = st.promptCache ∧
       (Prompts.init opts env st).1.promptABCache = st.promptABCache ∧
       (Prompts.init opts env st).1.initialized = true ∧
       (Prompts.init opts env st).1.apiKey =
         firstTruthyOpt [opts.apiKey, env.fallomApiKey] ∧
       (st.syncIntervalSet = true →
          (Prompts.init opts env st).1.syncIntervalSet = true)) := by
  constructor
  · intro opts env st
    cases hk : firstTruthyOpt [opts.apiKey, env.fallomApiKey] with
    | none => simp [Models.init, hk]
    | some key =>
        by_cases hs : st.syncIntervalSet
        · simp [Models.init, hk, hs]
        · simp [Models.init, hk, hs]
  · intro opts env st
    cases hk : firstTruthyOpt [opts.apiKey, env.fallomApiKey] with
    | none => simp [Prompts.init, hk]
    | some key =>
        by_cases hs : st.syncIntervalSet
        · simp [Prompts.init, hk, hs]
        · simp [Prompts.init, hk, hs]

/-- Witness for C9 on a state whose sync timer already runs. -/
theorem claim9_witness :
    (Models.init ⟨some "a", none⟩ wEnv wSt).1.syncIntervalSet = true ∧
    (Models.init ⟨some "a", none⟩ wEnv wSt).1.configCache = wSt.configCache :=
  ⟨(claim9_init_behavior.1 ⟨some "a", none⟩ wEnv wSt).2.2.2.2 rfl,
   (claim9_init_behavior.1 ⟨some "a", none⟩ wEnv wSt).1⟩

/-! ## Helper lemmas about the models get -/

/-- The catch block never changes the state produced by the try
block. -/
theorem get_state_eq (st : Models.ModelsState) (r : Models.Remote)
    (env : Models.Env) (k sid : String) (v : Option Nat) (fb : Option String) :
    (Models.get st r env k sid v fb).2.1 =
      (Models.getTry st r env k sid v fb).2.1 := by
  rw [Models.get]
  rcases hg : Models.getTry st r env k sid v fb with ⟨res, st', evs⟩
  cases res with
  | ok mv => rfl
  | error msg =>
      show (if msgHasNotFound msg then _
            else if truthy fb then _ else _ :
              Except String String × Models.ModelsState × List Models.Ev).2.1 = st'
      split
      · rfl
      · split <;> rfl

/-- Warm-cache test: the key is cached and the requested (or latest)
version is in its versions map. -/
def warmForB (st : Models.ModelsState) (configKey : String)
    (version : Option Nat) : Bool :=
  match lookupA st.configCache configKey with
  | none => false
  | some e =>
      match version with
      | some v => (lookupA e.versions v).isSome
      | none =>
          match e.latest with
          | none => false
          | some lv => (lookupA e.versions lv).isSome

/-- On a warm cache the try block leaves the state untouched: no fetch
runs, resolution is pure in-memory computation. -/
theorem getTry_warm_state (st : Models.ModelsState) (r : Models.Remote)
    (env : Models.Env) (k sid : String) (v : Option Nat) (fb : Option String)
    (hinit : st.initialized = true) (hw : warmForB st k v = true) :
    (Models.getTry st r env k sid v fb).2.1 = st := by
  have hens : Models.ensureInit env st = (st, []) := by
    simp [Models.ensureInit, hinit]
  cases hlk : lookupA st.configCache k with
  | none => simp [warmForB, hlk] at hw
  | some e =>
      simp only [Models.getTry, hens, hlk]
      cases v with
      | some vv =>
          cases hv : lookupA e.versions vv with
          | none => simp [warmForB, hlk, hv] at hw
          | some cfg =>
              simp only [Models.getWithEntry, hv, Models.finishAssign]
              cases Models.selectModel cfg.variants (hashBucket sid) <;> rfl
      | none =>
          cases hl : e.latest with
          | none => simp [warmForB, hlk, hl] at hw
          | some lv =>
              cases hv : lookupA e.versions lv with
              | none => simp [warmForB, hlk, hl, hv] at hw
              | some cfg =>
                  simp only [Models.getWithEntry, hl, hv, Models.finishAssign]
                  cases Models.selectModel cfg.variants (hashBucket sid) <;> rfl

theorem containsSub_append_right (n l2 : List Char) (l1 : List Char)
    (h : containsSub n l2 = true) : containsSub n (l1 ++ l2) = true := by
  induction l1 with
  | nil => simpa using h
  | cons c t ih =>
      simp only [List.cons_append, containsSub, Bool.or_eq_true]
      exact Or.inr ih

/-- The unknown-key message always contains "not found". -/
theorem msgHasNotFound_notFoundMsg (k : String) :
    msgHasNotFound (Models.notFoundMsg k) = true := by
  unfold msgHasNotFound Models.notFoundMsg
  rw [String.data_append, String.data_append]
  rw [List.append_assoc]
  exact containsSub_append_right _ _ _
    (containsSub_append_right _ _ _ (by decide))

/-- The unknown-version message always contains "not found". -/
theorem msgHasNotFound_versionMsg (k : String) (v : Nat) :
    msgHasNotFound (Models.versionNotFoundMsg k v) = true := by
  unfold msgHasNotFound Models.versionNotFoundMsg
  rw [String.data_append]
  exact containsSub_append_right _ _ _ (by decide)

/-- The empty-variants TypeError message does not contain
"not found". -/
theorem msgHasNotFound_typeError :
    msgHasNotFound Models.typeErrorMsg = false := by decide

/-! ## Claim C2: hash bucket range and warm-cache determinism -/

/-- C2: the session hash bucket - the big-endian 32-bit word of the
first four MD5 bytes reduced modulo 1,000,000, a function of the
sticky id alone - always lies in `[0, 1_000_000)`; and against an
unchanged (warm) cache, `get` does not modify the state, so a second
call with identical inputs returns the identical result. -/
theorem claim2_hash_determinism :
    (∀ s : String, hashBucket s < 1000000) ∧
    (∀ (st : Models.ModelsState) (r : Models.Remote) (env : Models.Env)
       (configKey sessionId : String) (version : Option Nat)
       (fallback : Option String),
       st.initialized = true → warmForB st configKey version = true →
       (Models.get st r env configKey sessionId version fallback).2.1 = st ∧
       (Models.get (Models.get st r env configKey sessionId version fallback).2.1
          r env configKey sessionId version fallback).1 =
         (Models.get st r env configKey sessionId version fallback).1) := by
  constructor
  · intro s
    exact Nat.mod_lt _ (by norm_num)
  · intro st r env k sid v fb hinit hw
    have hst : (Models.get st r env k sid v fb).2.1 = st := by
      rw [get_state_eq]
      exact getTry_warm_state st r env k sid v fb hinit hw
    exact ⟨hst, by rw [hst]⟩

/-- Witness for C2 on a concrete warm state. -/
theorem claim2_witness :
    hashBucket "s1" < 1000000 ∧
    (Models.get wSt wR wEnv "ck" "s1" none none).2.1 = wSt :=
  ⟨claim2_hash_determinism.1 "s1",
   (claim2_hash_determinism.2 wSt wR wEnv "ck" "s1" none none rfl (by decide)).1⟩

/-! ## Claim C3: unknown config key -/

/-- Counterexample to C3: an empty string is a supplied fallback, yet
the truthiness test of the source treats it as absent, so resolve
throws the not-found error instead of returning the fallback value. -/
theorem claim3_counterexample :
    Models.get emptySt emptyR wEnv "nonexistent-key" "s1" none (some "") =
      (Except.error (Models.notFoundMsg "nonexistent-key"),
       Models.fetchConfigs emptySt emptyR, [Models.Ev.fetchAll]) ∧
    ¬ (Models.get emptySt emptyR wEnv "nonexistent-key" "s1" none
        (some "")).1 = Except.ok "" := by
  refine ⟨rfl, ?_⟩
  intro h
  rw [show (Models.get emptySt emptyR wEnv "nonexistent-key" "s1" none
      (some "")).1 = Except.error (Models.notFoundMsg "nonexistent-key") from rfl] at h
  exact Except.noConfusion h

/-- C3 amended: when the key is still unknown after the on-demand
fetch attempt, a truthy (non-empty) fallback is returned with the
version-0 sentinel and the recorder is skipped (the events are exactly
the one fetch-all), while an absent or empty fallback yields the
thrown not-found error. -/
theorem claim3_fallback_policy :
    ∀ (st : Models.ModelsState) (r : Models.Remote) (env : Models.Env)
      (k sid : String) (fb : Option String),
      st.initialized = true →
      lookupA st.configCache k = none →
      lookupA (Models.fetchConfigs st r).configCache k = none →
      ((truthy fb = true →
          Models.get st r env k sid none fb =
            (Except.ok (fb.getD ""), Models.fetchConfigs st r,
             [Models.Ev.fetchAll])) ∧
       (truthy fb = false →
          Models.get st r env k sid none fb =
            (Except.error (Models.notFoundMsg k), Models.fetchConfigs st r,
             [Models.Ev.fetchAll]))) := by
  intro st r env k sid fb hinit h1 h2
  have hens : Models.ensureInit env st = (st, []) := by
    simp [Models.ensureInit, hinit]
  constructor
  · intro htf
    simp [Models.get, Models.getTry, hens, h1, h2, htf]
  · intro htf
    simp [Models.get, Models.getTry, hens, h1, h2, htf,
      msgHasNotFound_notFoundMsg]

/-- Witness for C3 with the fallback of the spec example. -/
theorem claim3_witness :
    Models.get emptySt emptyR wEnv "nonexistent-key" "s1" none
        (some "gpt-4o-mini") =
      (Except.ok "gpt-4o-mini", Models.fetchConfigs emptySt emptyR,
       [Models.Ev.fetchAll]) :=
  (claim3_fallback_policy emptySt emptyR wEnv "nonexistent-key" "s1"
      (some "gpt-4o-mini") rfl (by decide) (by decide)).1 rfl

/-! ## Claim C5: zero-variant configs -/

/-- A config with an empty variant collection. -/
def c5Cfg : Models.Config := ⟨"k", 1, []⟩

/-- A warm state caching the zero-variant config. -/
def c5St : Models.ModelsState :=
  ⟨some "key", "https://configs.fallom.com", true, true,
   [("k", ⟨[(1, c5Cfg)], some 1⟩)]⟩

/-- Counterexample to C5: with a fallback supplied, the error raised
on a zero-variant config does not propagate - the catch block of the
model resolver converts it into the fallback value. -/
theorem claim5_counterexample :
    (Models.get c5St emptyR wEnv "k" "s1" none (some "gpt-4o-mini")).1 =
      Except.ok "gpt-4o-mini" := by
  rfl

/-- C5 amended: a zero-variant config raises an error; in the model
resolver it propagates only when no truthy fallback is supplied and is
otherwise converted into the fallback; in the prompt A/B resolver
(which has no fallback option) the no-variants error always
propagates. -/
theorem claim5_zero_variants :
    (∀ (st : Models.ModelsState) (r : Models.Remote) (env : Models.Env)
       (k sid : String) (fb : Option String) (e : VCache Models.Config)
       (lv : Nat) (cfg : Models.Config),
       st.initialized = true →
       lookupA st.configCache k = some e →
       e.latest = some lv →
       lookupA e.versions lv = some cfg →
       cfg.variants = [] →
       ((truthy fb = false →
           (Models.get st r env k sid none fb).1 =
             Except.error Models.typeErrorMsg) ∧
        (truthy fb = true →
           (Models.get st r env k sid none fb).1 = Except.ok (fb.getD "")))) ∧
    (∀ (st : Prompts.PromptsState) (r : Prompts.PRemote) (env : Prompts.PEnv)
       (ab sid : String) (varsOpt : Option (List (String × String)))
       (e : VCache Prompts.PromptABVersion) (cv : Nat)
       (vd : Prompts.PromptABVersion),
       st.initialized = true →
       lookupA st.promptABCache ab = some e →
       e.latest = some cv →
       lookupA e.versions cv = some vd →
       vd.variants = [] →
       (Prompts.getAB st r env ab sid varsOpt).1 =
         Except.error ("Prompt A/B test " ++ ab ++
           " has no variants configured.")) := by
  constructor
  · intro st r env k sid fb e lv cfg hinit hlk hl hv hvar
    have hens : Models.ensureInit env st = (st, []) := by
      simp [Models.ensureInit, hinit]
    have hsel : Models.selectModel cfg.variants (hashBucket sid) = none := by
      rw [hvar]
      rfl
    constructor
    · intro htf
      simp [Models.get, Models.getTry, hens, hlk, Models.getWithEntry, hl, hv,
        Models.finishAssign, hsel, msgHasNotFound_typeError, htf]
    · intro htf
      simp [Models.get, Models.getTry, hens, hlk, Models.getWithEntry, hl, hv,
        Models.finishAssign, hsel, msgHasNotFound_typeError, htf]
  · intro st r env ab sid varsOpt e cv vd hinit hlk hl hv hvar
    have hens : Prompts.ensureInit env st = (st, []) := by
      simp [Prompts.ensureInit, hinit]
    have hgl : vd.variants.getLast? = none := by
      rw [hvar]
      rfl
    simp [Prompts.getAB, hens, hlk, hl, hv, hgl]

/-- Witness for C5: without a fallback the TypeError propagates, and
the prompt A/B resolver propagates its no-variants error. -/
theorem claim5_witness :
    (Models.get c5St emptyR wEnv "k" "s1" none none).1 =
      Except.error Models.typeErrorMsg ∧
    (Prompts.getAB
        ⟨some "key", "https://prompts.fallom.com", true, true, [],
         [("t", ⟨[(1, ⟨[]⟩)], some 1⟩)], none⟩
        ⟨some [], some []⟩ ⟨none, none, none⟩ "t" "s1" none).1 =
      Except.error ("Prompt A/B test " ++ "t" ++ " has no variants configured.") :=
  ⟨(claim5_zero_variants.1 c5St emptyR wEnv "k" "s1" none ⟨[(1, c5Cfg)], some 1⟩
      1 c5Cfg rfl (by decide) rfl (by decide) rfl).1 rfl,
   claim5_zero_variants.2
     ⟨some "key", "https://prompts.fallom.com", true, true, [],
      [("t", ⟨[(1, ⟨[]⟩)], some 1⟩)], none⟩
     ⟨some [], some []⟩ ⟨none, none, none⟩ "t" "s1" none ⟨[(1, ⟨[]⟩)], some 1⟩
     1 ⟨[]⟩ rfl (by decide) rfl (by decide) rfl⟩

/-! ## Claim C6: pinned versions missing from the cache -/

/-- Recognizes single-version fetch events. -/
def isFetchOneEv : Models.Ev → Bool
  | Models.Ev.fetchOne _ _ => true
  | _ => false

/-- The empty prompt environment. -/
def wPEnv : Prompts.PEnv := ⟨none, none, none⟩

/-- A warm prompt state knowing key `p` at version 1 only. -/
def c6PSt : Prompts.PromptsState :=
  ⟨some "key", "https://prompts.fallom.com", true, true,
   [("p", ⟨[(1, ⟨"sys", "usr"⟩)], some 1⟩)], [], none⟩

/-- A prompt remote that could serve version 2 of `p` in bulk. -/
def c6PR : Prompts.PRemote := ⟨some [⟨"p", 2, "sys2", "usr2"⟩], some []⟩

/-- Counterexample to C6: pinning version 2 of the known prompt key
`p` raises the version-not-found error immediately, with an empty
event list - the prompt resolver attempts no on-demand single-version
fetch (none exists in that module). -/
theorem claim6_counterexample :
    Prompts.get c6PSt c6PR wPEnv "p" none (some 2) =
      (Except.error (Prompts.promptVerMsg "p" "2"), c6PSt, []) := by
  rfl

/-- C6 amended: in the model resolver a pinned version absent from a
known key but an uncached pinned version triggers exactly one
single-version fetch, the
version-not-found error is raised (without fallback) exactly when that
fetch fails, and a successful fetch resolves from the fetched config;
the prompt resolver raises immediately with no fetch at all. -/
theorem claim6_version_fetch :
    (∀ (st : Models.ModelsState) (r : Models.Remote) (env : Models.Env)
       (k sid : String) (v : Nat) (fb : Option String)
       (e : VCache Models.Config),
       st.initialized = true →
       lookupA st.configCache k = some e →
       lookupA e.versions v = none →
       (((Models.get st r env k sid (some v) fb).2.2.filter isFetchOneEv =
           [Models.Ev.fetchOne k v]) ∧
        (r.specificResp k v = none → truthy fb = false →
           (Models.get st r env k sid (some v) fb).1 =
             Except.error (Models.versionNotFoundMsg k v)) ∧
        (∀ (cfg : Models.Config) (m : String),
           st.apiKey.isSome = true →
           r.specificResp k v = some cfg →
           Models.selectModel cfg.variants (hashBucket sid) = some m →
           (Models.get st r env k sid (some v) fb).1 = Except.ok m))) ∧
    (∀ (st : Prompts.PromptsState) (r : Prompts.PRemote) (env : Prompts.PEnv)
       (pk : String) (varsOpt : Option (List (String × String))) (v : Nat)
       (e : VCache Prompts.PromptContent),
       st.initialized = true →
       lookupA st.promptCache pk = some e →
       lookupA e.versions v = none →
       Prompts.get st r env pk varsOpt (some v) =
         (Except.error (Prompts.promptVerMsg pk (toString v)), st, [])) := by
  constructor
  · intro st r env k sid v fb e hinit hlk hv
    have hens : Models.ensureInit env st = (st, []) := by
      simp [Models.ensureInit, hinit]
    refine ⟨?_, ?_, ?_⟩
    · cases hk : st.apiKey with
      | none =>
          cases htf : truthy fb with
          | false =>
              simp [Models.get, Models.getTry, hens, hlk, Models.getWithEntry,
                hv, Models.fetchSpecificVersion, hk, htf,
                msgHasNotFound_versionMsg, isFetchOneEv]
          | true =>
              simp [Models.get, Models.getTry, hens, hlk, Models.getWithEntry,
                hv, Models.fetchSpecificVersion, hk, htf, isFetchOneEv]
      | some key =>
          cases hr : r.specificResp k v with
          | none =>
              cases htf : truthy fb with
              | false =>
                  simp [Models.get, Models.getTry, hens, hlk,
                    Models.getWithEntry, hv, Models.fetchSpecificVersion, hk,
                    hr, htf, msgHasNotFound_versionMsg, isFetchOneEv]
              | true =>
                  simp [Models.get, Models.getTry, hens, hlk,
                    Models.getWithEntry, hv, Models.fetchSpecificVersion, hk,
                    hr, htf, isFetchOneEv]
          | some cfg =>
              cases hsel : Models.selectModel cfg.variants (hashBucket sid) with
              | none =>
                  cases htf : truthy fb with
                  | false =>
                      simp [Models.get, Models.getTry, hens, hlk,
                        Models.getWithEntry, hv, Models.fetchSpecificVersion,
                        hk, hr, Models.finishAssign, hsel,
                        msgHasNotFound_typeError, htf, isFetchOneEv]
                  | true =>
                      simp [Models.get, Models.getTry, hens, hlk,
                        Models.getWithEntry, hv, Models.fetchSpecificVersion,
                        hk, hr, Models.finishAssign, hsel,
                        msgHasNotFound_typeError, htf, isFetchOneEv]
              | some m =>
                  simp only [Models.get, Models.getTry, hens, hlk,
                    Models.getWithEntry, hv, Models.fetchSpecificVersion, hk,
                    hr, Models.finishAssign, hsel]
                  split <;> split <;> simp [isFetchOneEv]
    · intro hr htf
      cases hk : st.apiKey with
      | none =>
          simp [Models.get, Models.getTry, hens, hlk, Models.getWithEntry, hv,
            Models.fetchSpecificVersion, hk, htf, msgHasNotFound_versionMsg]
      | some key =>
          simp [Models.get, Models.getTry, hens, hlk, Models.getWithEntry, hv,
            Models.fetchSpecificVersion, hk, hr, htf, msgHasNotFound_versionMsg]
    · intro cfg m ha hr hsel
      cases hk : st.apiKey with
      | none => simp [hk] at ha
      | some key =>
          simp [Models.get, Models.getTry, hens, hlk, Models.getWithEntry, hv,
            Models.fetchSpecificVersion, hk, hr, Models.finishAssign, hsel]
  · intro st r env pk varsOpt v e hinit hlk hv
    have hens : Prompts.ensureInit env st = (st, []) := by
      simp [Prompts.ensureInit, hinit]
    simp [Prompts.get, hens, hlk, hv, Option.orElse]

/-- Witness for C6: pinning the uncached version 3 of the known key
`ck` against a remote that cannot serve it. -/
theorem claim6_witness :
    ((Models.get wSt emptyR wEnv "ck" "s1" (some 3) none).2.2.filter
        isFetchOneEv = [Models.Ev.fetchOne "ck" 3]) ∧
    (Models.get wSt emptyR wEnv "ck" "s1" (some 3) none).1 =
      Except.error (Models.versionNotFoundMsg "ck" 3) :=
  ⟨(claim6_version_fetch.1 wSt emptyR wEnv "ck" "s1" 3 none
      ⟨[(1, wCfg)], some 1⟩ rfl (by decide) (by decide)).1,
   (claim6_version_fetch.1 wSt emptyR wEnv "ck" "s1" 3 none
      ⟨[(1, wCfg)], some 1⟩ rfl (by decide) (by decide)).2.1 rfl rfl⟩

/-! ## Helper lemmas for the template interpolation -/

theorem word_not_space (c : Char) (h : isWordChar c = true) :
    isSpaceChar c = false := by
  simp only [isWordChar, Bool.or_eq_true, Bool.and_eq_true, decide_eq_true_eq,
    beq_iff_eq] at h
  simp only [isSpaceChar, Bool.or_eq_false_iff, Bool.and_eq_false_iff,
    decide_eq_false_iff_not, not_le, beq_eq_false_iff_ne, ne_eq]
  omega

theorem space_not_word (c : Char) (h : isSpaceChar c = true) :
    isWordChar c = false := by
  simp only [isSpaceChar, Bool.or_eq_true, Bool.and_eq_true,
    decide_eq_true_eq, beq_iff_eq] at h
  simp only [isWordChar, Bool.or_eq_false_iff, Bool.and_eq_false_iff,
    decide_eq_false_iff_not, not_le, beq_eq_false_iff_ne, ne_eq]
  omega

theorem takeWhile_append_all {p : Char → Bool} (l1 l2 : List Char)
    (h : ∀ c ∈ l1, p c = true) :
    (l1 ++ l2).takeWhile p = l1 ++ l2.takeWhile p := by
  induction l1 with
  | nil => simp
  | cons a t ih =>
      have ha : p a = true := h a (by simp)
      simp only [List.cons_append, List.takeWhile_cons, ha, if_true]
      rw [ih fun c hc => h c (by simp [hc])]

theorem dropWhile_append_all {p : Char → Bool} (l1 l2 : List Char)
    (h : ∀ c ∈ l1, p c = true) :
    (l1 ++ l2).dropWhile p = l2.dropWhile p := by
  induction l1 with
  | nil => simp
  | cons a t ih =>
      have ha : p a = true := h a (by simp)
      simp only [List.cons_append, List.dropWhile_cons, ha, if_true]
      exact ih fun c hc => h c (by simp [hc])

/-- The placeholder matcher succeeds on exactly the regex shape:
two opening braces, whitespace, a non-empty word, whitespace, two
closing braces, end of match. -/
theorem tryPlaceholder_shape (ws1 name ws2 : List Char)
    (hn : name ≠ []) (hword : ∀ c ∈ name, isWordChar c = true)
    (hws1 : ∀ c ∈ ws1, isSpaceChar c = true)
    (hws2 : ∀ c ∈ ws2, isSpaceChar c = true) :
    tryPlaceholder (lbrace :: lbrace :: (ws1 ++ name ++ ws2 ++ [rbrace, rbrace])) =
      some (name, lbrace :: lbrace :: (ws1 ++ name ++ ws2 ++ [rbrace, rbrace]),
        []) := by
  obtain ⟨n0, nt, rfl⟩ := List.exists_cons_of_ne_nil hn
  have hn0w : isWordChar n0 = true := hword n0 (by simp)
  have hn0s : isSpaceChar n0 = false := word_not_space n0 hn0w
  have hrbw : isWordChar rbrace = false := by decide
  have hrbs : isSpaceChar rbrace = false := by decide
  have h2rt : ((ws2 ++ [rbrace, rbrace]).takeWhile isWordChar) = [] := by
    cases ws2 with
    | nil => simp [List.takeWhile_cons, hrbw]
    | cons s0 st2 =>
        have := space_not_word s0 (hws2 s0 (by simp))
        simp [List.takeWhile_cons, this]
  have h2rd : ((ws2 ++ [rbrace, rbrace]).dropWhile isWordChar) =
      ws2 ++ [rbrace, rbrace] := by
    cases ws2 with
    | nil => simp [List.dropWhile_cons, hrbw]
    | cons s0 st2 =>
        have := space_not_word s0 (hws2 s0 (by simp))
        simp [List.dropWhile_cons, this]
  have htw1 : ((ws1 ++ ((n0 :: nt) ++ (ws2 ++ [rbrace, rbrace]))).takeWhile
      isSpaceChar) = ws1 := by
    rw [takeWhile_append_all _ _ hws1]
    simp [List.takeWhile_cons, hn0s]
  have hdw1 : ((ws1 ++ ((n0 :: nt) ++ (ws2 ++ [rbrace, rbrace]))).dropWhile
      isSpaceChar) = (n0 :: nt) ++ (ws2 ++ [rbrace, rbrace]) := by
    rw [dropWhile_append_all _ _ hws1]
    simp [List.dropWhile_cons, hn0s]
  have htw2 : (((n0 :: nt) ++ (ws2 ++ [rbrace, rbrace])).takeWhile isWordChar) =
      n0 :: nt := by
    rw [takeWhile_append_all _ _ hword, h2rt, List.append_nil]
  have hdw2 : (((n0 :: nt) ++ (ws2 ++ [rbrace, rbrace])).dropWhile isWordChar) =
      ws2 ++ [rbrace, rbrace] := by
    rw [dropWhile_append_all _ _ hword, h2rd]
  have htw3 : ((ws2 ++ [rbrace, rbrace]).takeWhile isSpaceChar) = ws2 := by
    rw [takeWhile_append_all _ _ hws2]
    simp [List.takeWhile_cons, hrbs]
  have hdw3 : ((ws2 ++ [rbrace, rbrace]).dropWhile isSpaceChar) =
      [rbrace, rbrace] := by
    rw [dropWhile_append_all _ _ hws2]
    simp [List.dropWhile_cons, hrbs]
  simp only [tryPlaceholder, beq_self_eq_true, Bool.and_self, if_true,
    List.append_assoc]
  rw [htw1, hdw1, htw2, hdw2, htw3, hdw3]
  simp

/-- Unfolding equation of the scan at positive fuel. -/
theorem interpolateGo_succ (vars : List (String × String)) (fuel : Nat)
    (c : Char) (rest : List Char) :
    interpolateGo vars (fuel + 1) (c :: rest) =
      match tryPlaceholder (c :: rest) with
      | some (name, matched, after) =>
          (match jsLookup vars (String.mk name) with
           | some v => v.data
           | none => matched) ++ interpolateGo vars fuel after
      | none => c :: interpolateGo vars fuel rest := rfl

theorem interpolateGo_nil (vars : List (String × String)) (fuel : Nat) :
    interpolateGo vars fuel [] = [] := by
  cases fuel <;> rfl

theorem strMk_data (s : String) : String.mk s.data = s := by
  cases s
  rfl

/-- On input without opening braces the scan is the identity. -/
theorem interpolateGo_no_brace (vars : List (String × String)) :
    ∀ (fuel : Nat) (cs : List Char), (∀ c ∈ cs, (c == lbrace) = false) →
      interpolateGo vars fuel cs = cs := by
  intro fuel
  induction fuel with
  | zero => intro cs _; rfl
  | succ f ih =>
      intro cs h
      cases cs with
      | nil => rfl
      | cons c rest =>
          have hc : (c == lbrace) = false := h c (by simp)
          have htp : tryPlaceholder (c :: rest) = none := by
            cases rest with
            | nil => rfl
            | cons c2 r => simp [tryPlaceholder, hc]
          rw [interpolateGo_succ, htp, ih rest fun x hx => h x (by simp [hx])]

/-! ## Claim C4: template interpolation -/

/-- Counterexample to C4: the name toString is not a key of the empty
variables map, yet the placeholder is not left verbatim - the in
operator of the source finds the inherited Object.prototype property
and the program substitutes its stringified value. -/
theorem claim4_counterexample :
    replaceVariables "Hello \x7b\x7btoString\x7d\x7d" (some []) =
      "Hello function toString() \x7b [native code] \x7d" ∧
    ¬ replaceVariables "Hello \x7b\x7btoString\x7d\x7d" (some []) =
        "Hello \x7b\x7btoString\x7d\x7d" := by
  exact ⟨by rfl, by decide⟩

/-- C4 amended: interpolation replaces a placeholder of shape two
opening braces, whitespace, word-character name, whitespace, two
closing braces by `String(variables[name])` exactly when the name is
an own key of the variables or a property inherited from
Object.prototype (the in operator of the source walks the prototype
chain), and leaves it verbatim otherwise; text without opening braces
is untouched; the pass is single and non-recursive (a substituted
value is not re-scanned); the two round-trip examples of the spec
hold (the name missing is no prototype property). -/
theorem claim4_interpolation :
    (replaceVariables "Hello \x7b\x7bname\x7d\x7d" (some [("name", "Ada")]) =
       "Hello Ada") ∧
    (replaceVariables "Hello \x7b\x7bmissing\x7d\x7d" (some []) =
       "Hello \x7b\x7bmissing\x7d\x7d") ∧
    (replaceVariables "\x7b\x7ba\x7d\x7d"
       (some [("a", "\x7b\x7bb\x7d\x7d"), ("b", "X")]) = "\x7b\x7bb\x7d\x7d") ∧
    (∀ (vars : List (String × String)) (name ws1 ws2 : List Char),
       name ≠ [] → (∀ c ∈ name, isWordChar c = true) →
       (∀ c ∈ ws1, isSpaceChar c = true) → (∀ c ∈ ws2, isSpaceChar c = true) →
       replaceVariables
           (String.mk (lbrace :: lbrace :: (ws1 ++ name ++ ws2 ++ [rbrace, rbrace])))
           (some vars) =
         (jsLookup vars (String.mk name)).getD
           (String.mk (lbrace :: lbrace :: (ws1 ++ name ++ ws2 ++ [rbrace, rbrace])))) ∧
    (∀ (s : String) (vars : List (String × String)),
       (∀ c ∈ s.data, (c == lbrace) = false) →
       replaceVariables s (some vars) = s) := by
  refine ⟨by rfl, by rfl, by rfl, ?_, ?_⟩
  · intro vars name ws1 ws2 hn hword hws1 hws2
    show String.mk (interpolateGo vars
        (lbrace :: lbrace :: (ws1 ++ name ++ ws2 ++ [rbrace, rbrace])).length
        (lbrace :: lbrace :: (ws1 ++ name ++ ws2 ++ [rbrace, rbrace]))) = _
    rw [List.length_cons, interpolateGo_succ,
      tryPlaceholder_shape ws1 name ws2 hn hword hws1 hws2]
    show String.mk ((match jsLookup vars (String.mk name) with
      | some v => v.data
      | none => lbrace :: lbrace :: (ws1 ++ name ++ ws2 ++ [rbrace, rbrace])) ++
        interpolateGo vars
          (lbrace :: (ws1 ++ name ++ ws2 ++ [rbrace, rbrace])).length []) = _
    rw [interpolateGo_nil, List.append_nil]
    cases hlv : jsLookup vars (String.mk name) with
    | some v => simp [strMk_data]
    | none => simp
  · intro s vars h
    show String.mk (interpolateGo vars s.data.length s.data) = s
    rw [interpolateGo_no_brace vars s.data.length s.data h, strMk_data]

/-- Witness for C4: the general placeholder law at a concrete
placeholder with whitespace (own key shadowing nothing), at the
inherited name toString with empty variables, and the no-brace
identity on plain text. -/
theorem claim4_witness :
    replaceVariables
        (String.mk (lbrace :: lbrace :: (([' '] ++ ['x'] ++ [' '] ++
          [rbrace, rbrace]))))
        (some [("x", "1")]) = "1" ∧
    replaceVariables
        (String.mk (lbrace :: lbrace ::
          (([] : List Char) ++ "toString".data ++ ([] : List Char) ++
            [rbrace, rbrace])))
        (some []) = "function toString() \x7b [native code] \x7d" ∧
    replaceVariables "plain text" (some [("x", "1")]) = "plain text" := by
  refine ⟨?_, ?_, ?_⟩
  · have h := claim4_interpolation.2.2.2.1 [("x", "1")] ['x'] [' '] [' ']
      (by simp) (by decide) (by decide) (by decide)
    simpa using h
  · have h := claim4_interpolation.2.2.2.1 [] "toString".data [] []
      (by decide) (by decide) (by simp) (by simp)
    simpa using h
  · exact claim4_interpolation.2.2.2.2 "plain text" [("x", "1")] (by decide)

/-! ## Claim C10: the one-shot prompt context -/

/-- C10: after a successful `prompts.get` or `prompts.getAB` the first
`getPromptContext` call returns the context of that resolution - its
prompt key and version, plus the A/B test key and variant index for
`getAB` - and clears it, so an immediately following call returns
null. -/
theorem claim10_one_shot_context :
    (∀ (st : Prompts.PromptsState) (r : Prompts.PRemote) (env : Prompts.PEnv)
       (pk : String) (varsOpt : Option (List (String × String)))
       (v : Option Nat) (res : Prompts.PromptResult)
       (st' : Prompts.PromptsState) (evs : List Prompts.PEv),
       Prompts.get st r env pk varsOpt v = (Except.ok res, st', evs) →
       Prompts.getPromptContext st' =
         (some ⟨res.key, res.version, none, none⟩,
          { st' with promptContext := none }) ∧
       (Prompts.getPromptContext (Prompts.getPromptContext st').2).1 = none) ∧
    (∀ (st : Prompts.PromptsState) (r : Prompts.PRemote) (env : Prompts.PEnv)
       (ab sid : String) (varsOpt : Option (List (String × String)))
       (res : Prompts.PromptResult) (st' : Prompts.PromptsState)
       (evs : List Prompts.PEv),
       Prompts.getAB st r env ab sid varsOpt = (Except.ok res, st', evs) →
       Prompts.getPromptContext st' =
         (some ⟨res.key, res.version, some ab, res.variantIndex⟩,
          { st' with promptContext := none }) ∧
       (Prompts.getPromptContext (Prompts.getPromptContext st').2).1 = none) := by
  constructor
  · intro st r env pk varsOpt v res st' evs h
    simp only [Prompts.get] at h
    split at h
    · simp at h
    · split at h
      · simp at h
      · split at h
        · simp at h
        · simp only [Prod.mk.injEq, Except.ok.injEq] at h
          obtain ⟨h1, h2, h3⟩ := h
          subst h1
          subst h2
          exact ⟨rfl, rfl⟩
  · intro st r env ab sid varsOpt res st' evs h
    simp only [Prompts.getAB] at h
    split at h
    · simp at h
    · split at h
      · simp at h
      · split at h
        · simp at h
        · split at h
          · simp at h
          · split at h
            · simp at h
            · split at h
              · simp at h
              · simp only [Prod.mk.injEq, Except.ok.injEq] at h
                obtain ⟨h1, h2, h3⟩ := h
                subst h1
                subst h2
                exact ⟨rfl, rfl⟩

/-- A warm prompt state with one prompt and one two-variant A/B
test. -/
def wPSt : Prompts.PromptsState :=
  ⟨some "key", "https://prompts.fallom.com", true, true,
   [("p", ⟨[(1, ⟨"sys", "hi"⟩)], some 1⟩)],
   [("t", ⟨[(1, ⟨[⟨"p", some 1, 40⟩, ⟨"p", none, 20⟩]⟩)], some 1⟩)], none⟩

/-- A prompt remote with empty bulk responses. -/
def wPR : Prompts.PRemote := ⟨some [], some []⟩

/-- Witness for C10 on concrete successful resolutions (the session
hash of "s1" is 236,672, which selects variant 0). -/
theorem claim10_witness :
    (Prompts.getPromptContext ((Prompts.get wPSt wPR wPEnv "p" none none).2.1)).1 =
      some ⟨"p", 1, none, none⟩ ∧
    (Prompts.getPromptContext
        ((Prompts.getAB wPSt wPR wPEnv "t" "s1" none).2.1)).1 =
      some ⟨"p", 1, some "t", some 0⟩ ∧
    (Prompts.getPromptContext
        (Prompts.getPromptContext
          ((Prompts.getAB wPSt wPR wPEnv "t" "s1" none).2.1)).2).1 = none := by
  have h1 := claim10_one_shot_context.1 wPSt wPR wPEnv "p" none none
    ⟨"p", 1, "sys", "hi", none, none⟩
    { wPSt with promptContext := some ⟨"p", 1, none, none⟩ } [] (by rfl)
  have h2 := claim10_one_shot_context.2 wPSt wPR wPEnv "t" "s1" none
    ⟨"p", 1, "sys", "hi", some "t", some 0⟩
    { wPSt with promptContext := some ⟨"p", 1, some "t", some 0⟩ } []
    (by with_unfolding_all rfl)
  refine ⟨congrArg Prod.fst h1.1, ?_, ?_⟩
  · with_unfolding_all exact congrArg Prod.fst h2.1
  · with_unfolding_all exact h2.2


